import Mathlib

set_option maxHeartbeats 1000000

/-! Shallow embedding of the continuous-batching core of the
text-generation-inference router (`router/src/batcher.rs`, together with the
client error type of `router/client/src/lib.rs`).

Machine integers of the source (`u32`, `u64`, `usize`) are modelled as `Nat`;
none of the verified properties involves wraparound.  Rust aborts (indexing
out of range, `unwrap`, `expect`, `assert_eq!`, `usize` underflow, and
`windows(0)`) are modelled by `Option` results, with `none` standing for an
abort.  Times (`tokio::time::Instant`) are modelled as `Nat` instants, with
the current time passed explicitly as a `now` argument.

Code of the repository that is referenced by `batcher.rs` but whose file is
not part of the two given sources (the `Entry`/`Queue` types of `queue.rs`,
the `Decoder`/`IncrementalDecoderWrapper` of `decoder.rs`, and the generated
protobuf types) is modelled from the specification; each such definition
carries a doc comment saying so. -/

/-- Stop reasons, re-exported in batcher.rs from `pb::fmaas::StopReason`.
Modelled from the spec: the spec lists exactly these eight reasons, with
`NotFinished` the internal default value. -/
inductive StopReason where
  | NotFinished
  | EosToken
  | MaxTokens
  | TokenLimit
  | StopSequence
  | TimeLimit
  | Cancelled
  | Error
  deriving DecidableEq, Repr

instance : Inhabited StopReason := ⟨StopReason.NotFinished⟩

/-- Client-side error type, from `router/client/src/lib.rs`. -/
inductive ClientError where
  | Connection (msg : String)
  | Generation (msg : String)
  deriving DecidableEq, Repr

/-- Inference error type, from `batcher.rs` (`InferError`). -/
inductive InferError where
  | GenerationError (msg : String)
  | DetokenizationError (msg : String)
  | RequestQueueFull
  deriving DecidableEq, Repr

/-- One generated token as returned by the backend.  Modelled from the spec
(§6, `Token{request_id, token_id, logprob, rank, top_tokens?}`): the
floating-point payloads (`logprob`, `rank`, `top_tokens`) are not used by any
of the verified logic and are omitted. -/
structure Token where
  request_id : Nat
  token_id : Nat
  deriving DecidableEq, Repr

/-- Input-token info returned by the backend for each request on its first
response.  Modelled from the spec (§6, `InputTokens{request_id, tokens}`). -/
structure InputTokens where
  request_id : Nat
  tokens : List Token
  deriving DecidableEq, Repr

/-- A per-entry generation failure returned in a batch response.  Modelled
from the spec (§6, `GenerateError{request_id, message}`). -/
structure GenerateError where
  request_id : Nat
  message : String
  deriving DecidableEq, Repr

/-- Completion status carried by a cached batch.  Modelled from the spec
(§3, `CachedBatch` carries an optional `completed_ids` list). -/
structure RequestsStatus where
  completed_ids : List Nat
  deriving DecidableEq, Repr

/-- Backend-side handle for a batch between steps, from `batcher.rs` usage of
the protobuf `CachedBatch {batch_id, status?}`. -/
structure CachedBatch where
  batch_id : Nat
  status : Option RequestsStatus
  deriving DecidableEq, Repr

/-- Modelled from the spec: the tokenizer/detokenizer of `decoder.rs` (not
among the given sources).  Only the parts used by `batcher.rs` appear: the
eos token id, the `seq2seq` flag, and the incremental-decoding step and flush
operations.  A step maps the buffered (not yet emissible) text and a new
token id to newly emissible text plus the new buffered remainder; it may fail
with a detokenization error (§4.B). -/
structure Decoder where
  eos_token_id : Nat
  seq2seq : Bool
  stepFn : String → Nat → Except String (String × String)
  flushFn : String → Except String String

/-- Modelled from the spec: the stateful incremental decoder instance of
`decoder.rs` (§4.B).  `emitted` is the text already emitted at safe
boundaries (the value of `output()`), `pending` the text buffered while
waiting for a multi-byte boundary. -/
structure IncrementalDecoderWrapper where
  emitted : String
  pending : String
  deriving DecidableEq, Repr

/-- Fresh incremental decoder (`IncrementalDecoderWrapper::for_decoder`). -/
def IncrementalDecoderWrapper.init : IncrementalDecoderWrapper :=
  { emitted := "", pending := "" }

/-- Modelled from the spec: appending one token id returns the newly
emissible text and advances the decoder state (§4.B). -/
def IncrementalDecoderWrapper.next (idec : IncrementalDecoderWrapper)
    (token_id : Nat) (d : Decoder) :
    Except String (String × IncrementalDecoderWrapper) :=
  match d.stepFn idec.pending token_id with
  | Except.error e => Except.error e
  | Except.ok (text, pending') =>
    Except.ok (text, { emitted := idec.emitted ++ text, pending := pending' })

/-- Modelled from the spec: the accumulated decoded output so far
(`IncrementalDecoderWrapper::output`). -/
def IncrementalDecoderWrapper.output (idec : IncrementalDecoderWrapper) : String :=
  idec.emitted

/-- Modelled from the spec: `flush` emits any remaining buffered text and is
called exactly once when an entry terminates (§4.B). -/
def IncrementalDecoderWrapper.flush (idec : IncrementalDecoderWrapper)
    (d : Decoder) : Except String (String × IncrementalDecoderWrapper) :=
  match d.flushFn idec.pending with
  | Except.error e => Except.error e
  | Except.ok text =>
    Except.ok (text, { emitted := idec.emitted ++ text, pending := "" })

/-- Modelled from the spec: the full accumulated string held by the decoder
(`IncrementalDecoderWrapper::into_string`), emitted text plus buffered
remainder. -/
def IncrementalDecoderWrapper.intoString (idec : IncrementalDecoderWrapper) : String :=
  idec.emitted ++ idec.pending

/-- Modelled from the spec: the immutable request parameters of an entry
(§3, "Request parameters"), restricted to the fields `batcher.rs` reads. -/
structure GenerateParameters where
  min_new_tokens : Nat := 0
  max_new_tokens : Nat := 0
  max_is_token_limit : Bool := false
  stop_seqs : List String := []
  deadline : Option Nat := none
  seed : Option Nat := none
  include_input_text : Bool := false
  include_gen_tokens : Bool := false
  deriving DecidableEq, Repr

/-- Modelled from the spec: a generation request, carrying the prompt text
and the parameters (fields `inputs` and `parameters` as read by
`batcher.rs`). -/
structure GenerateRequest where
  inputs : String := ""
  parameters : GenerateParameters := {}
  deriving DecidableEq, Repr

/-- The reply channel of an entry: exactly one of a one-shot unary sender or
an unbounded streaming sender (§3, §9 of the spec model this as a tagged
variant).  `closed` records whether the receiving side has been dropped,
which is what `is_closed()` observes and what makes `send` fail. -/
inductive ReplyChannel where
  | unary (closed : Bool)
  | streaming (closed : Bool)
  deriving DecidableEq, Repr

/-- True for a streaming reply channel (`e.stream_tx.is_some()`). -/
def ReplyChannel.isStream : ReplyChannel → Bool
  | ReplyChannel.unary _ => false
  | ReplyChannel.streaming _ => true

/-- Modelled from the spec: per-request in-flight state (`Entry` of
`queue.rs`, §3 of the spec), restricted to the fields `batcher.rs` reads and
writes. -/
structure Entry where
  input_length : Nat := 0
  request : GenerateRequest := {}
  queue_time : Nat := 0
  batch_time : Option Nat := none
  generated_tokens : Nat := 0
  token_ids : List Nat := []
  tokens : List Token := []
  input_tokens : List Token := []
  output : Option IncrementalDecoderWrapper := none
  channel : ReplyChannel := ReplyChannel.unary false
  deriving DecidableEq, Repr

/-- Timing record, from `batcher.rs` (`Times`). -/
structure Times where
  queued : Nat
  start : Nat
  eend : Nat
  deriving DecidableEq, Repr

/-- `Times::from(&Entry)`: uses `entry.batch_time.unwrap()`, which aborts
when `batch_time` is absent; hence the `Option` result. -/
def Times.fromEntry (e : Entry) (now : Nat) : Option Times :=
  match e.batch_time with
  | none => none
  | some start => some { queued := e.queue_time, start := start, eend := now }

/-- Response record, from `batcher.rs` (`InferResponse`).  The
`TokenInfos` enum is modelled in its `WithIds` form (a token list); the
id-to-string decoding stage (`WithStrings`) happens outside the verified
logic. -/
structure InferResponse where
  output_text : String := ""
  is_decoded : Bool := false
  gen_token_count : Nat := 0
  token_ids : List Nat := []
  tokens : List Token := []
  in_tokens : List Token := []
  reason : StopReason := StopReason.NotFinished
  in_token_count : Nat := 0
  times : Option Times := none
  seed : Nat := 0
  deriving DecidableEq, Repr

/-- `InferResponse::stream_input_info`. -/
def InferResponse.stream_input_info (in_tokens : List Token) : InferResponse :=
  { in_token_count := in_tokens.length
    in_tokens := in_tokens
    is_decoded := true }

/-- `InferResponse::stream_inprog`. -/
def InferResponse.stream_inprog (token : Token) (count : Nat)
    (text : Option String) : InferResponse :=
  { is_decoded := text.isSome
    output_text := text.getD ""
    gen_token_count := count
    tokens := [token] }

/-- `InferResponse::stream_final`.  Building `Times` from the entry aborts
when `batch_time` is unset, hence the `Option`. -/
def InferResponse.stream_final (token : Token) (text : Option String)
    (entry : Entry) (stop_reason : StopReason) (now : Nat) : Option InferResponse :=
  (Times.fromEntry entry now).map fun times =>
    { is_decoded := text.isSome
      output_text := text.getD ""
      gen_token_count := entry.generated_tokens
      tokens := [token]
      reason := stop_reason
      times := some times
      seed := entry.request.parameters.seed.getD 0 }

/-- `InferResponse::unary`. -/
def InferResponse.unary (entry : Entry) (seq2seq : Bool)
    (stop_reason : StopReason) (now : Nat) : Option InferResponse :=
  let text0 : String :=
    if entry.request.parameters.include_input_text then
      entry.request.inputs ++ (if seq2seq then "\n\n" else "")
    else ""
  let p : Bool × String :=
    match entry.output with
    | some out_decoder =>
      (true, if text0.isEmpty then out_decoder.intoString
             else text0 ++ out_decoder.output)
    | none => (false, text0)
  (Times.fromEntry entry now).map fun times =>
    { output_text := p.2
      is_decoded := p.1
      gen_token_count := entry.generated_tokens
      token_ids := entry.token_ids
      tokens := entry.tokens
      in_tokens := entry.input_tokens
      reason := stop_reason
      times := some times
      in_token_count := entry.input_length
      seed := entry.request.parameters.seed.getD 0 }

/-- The in-flight map (`IntMap<u64, Entry>`) is modelled as an association
list keyed by entry id; `batcher.rs` accesses it only by key (plus one
`retain` sweep), so list order is immaterial.  This is the key lookup
(`entries.get_mut(&id)`). -/
def lookupE (k : Nat) : List (Nat × Entry) → Option Entry
  | [] => none
  | (id, e) :: rest => if k = id then some e else lookupE k rest

/-- Replacing the value stored under a key (writing back a mutated entry). -/
def updateE (k : Nat) (e' : Entry) (l : List (Nat × Entry)) : List (Nat × Entry) :=
  l.map fun p => if p.1 = k then (k, e') else p

/-- Removing a key (`entries.remove(&id)`). -/
def removeE (k : Nat) (l : List (Nat × Entry)) : List (Nat × Entry) :=
  l.filter fun p => !(p.1 == k)

/-- The UTF-8 bytes of a string (`str::as_bytes`, `str::len`), using the
pure per-character UTF-8 encoder that underlies `String.toUTF8`. -/
def strBytes (s : String) : List UInt8 :=
  s.data.flatMap String.utf8EncodeChar

/-- All length-`ss.length` windows of `s` compared against `ss`
(`slice::windows(len)` followed by `any`; the `rev()` in the source only
changes iteration order, not the result).  `windows(0)` aborts in Rust and
is guarded against separately in `anyStopMatch`. -/
def hasWindow (s ss : List UInt8) : Bool :=
  (List.range (s.length + 1 - ss.length)).any fun j =>
    ((s.drop j).take ss.length) == ss

/-- The per-stop-sequence search of `matches_stop_sequence`: for each stop
sequence `ss`, slice the output at `next_off - |ss|` (saturating, per
`checked_sub(..).unwrap_or(0)`) and look for a window equal to `ss`.  A zero
window length or an out-of-range slice start is a Rust abort (`none`). -/
def anyStopMatch (out : List UInt8) (next_off : Nat) :
    List (List UInt8) → Option Bool
  | [] => some false
  | ss :: rest =>
    if ss.length = 0 then none
    else
      let start := next_off - ss.length
      if out.length < start then none
      else if hasWindow (out.drop start) ss then some true
      else anyStopMatch out next_off rest

/-- Byte-level core of `TokenProcessor::matches_stop_sequence`:
`next_off = (output.len() + 1) - text.len()` (a `usize` subtraction that
aborts on underflow), then the windowed search per stop sequence. -/
def matches_stop_bytes (out text : List UInt8) (seqs : List (List UInt8)) :
    Option Bool :=
  if out.length + 1 < text.length then none
  else anyStopMatch out (out.length + 1 - text.length) seqs

/-- `TokenProcessor::matches_stop_sequence`.  With no newly decoded text the
result is `false`; otherwise the accumulated decoded output
(`e.output.as_ref().unwrap().output()`, aborting when no decoder is
instantiated) is searched near its tail for each stop sequence, on bytes. -/
def matches_stop_sequence (e : Entry) (last_text : Option String) : Option Bool :=
  match last_text with
  | some text =>
    match e.output with
    | none => none
    | some idec =>
      matches_stop_bytes (strBytes idec.output) (strBytes text)
        (e.request.parameters.stop_seqs.map strBytes)
  | none => some false

/-- `TokenProcessor::check_stopping_criteria`: the guarded match chain, in
source order.  `Instant::now() > deadline` is modelled as `deadline < now`.
The `Option` result propagates the possible abort of the stop-sequence
check. -/
def check_stopping_criteria (e : Entry) (last_token_id eos_token_id : Nat)
    (last_text : Option String) (now : Nat) : Option StopReason :=
  if (match e.request.parameters.deadline with
      | some deadline => decide (deadline < now)
      | none => false) then
    some StopReason.TimeLimit
  else if e.generated_tokens < e.request.parameters.min_new_tokens then
    some StopReason.NotFinished
  else if last_token_id == eos_token_id then
    some StopReason.EosToken
  else if e.request.parameters.max_new_tokens ≤ e.generated_tokens then
    some (if e.request.parameters.max_is_token_limit then StopReason.TokenLimit
          else StopReason.MaxTokens)
  else
    match matches_stop_sequence e last_text with
    | none => none
    | some b =>
      some (if b then StopReason.StopSequence else StopReason.NotFinished)

/-- Modelled from the spec: the admission queue of `queue.rs` as observed by
the growth decision — only its `next_entry_waiting_too_long()` observation is
consulted there (§4.D). -/
structure Queue where
  next_entry_waiting_too_long : Bool

/-- `should_try_to_grow_batch` of `batcher.rs`. -/
def should_try_to_grow_batch (entries : List (Nat × Entry)) (queue : Queue)
    (max_batch_size : Nat) (waiting_tokens : Nat) (max_waiting_tokens : Nat)
    (requests_completed : Bool) : Bool :=
  decide (waiting_tokens > 5) && decide (entries.length < max_batch_size) &&
    (decide (waiting_tokens ≥ max_waiting_tokens) || requests_completed
      || queue.next_entry_waiting_too_long)

/-- `some_completed` of `batcher.rs`:
`batch.status.as_ref().map_or(true, |s| !s.completed_ids.is_empty())`. -/
def some_completed (batch : CachedBatch) : Bool :=
  match batch.status with
  | none => true
  | some s => !s.completed_ids.isEmpty

/-- The per-entry messages pushed into reply channels, as a log of
`(entry id, sent payload)` attempts (receiver-gone is ignored by the source,
so every attempted send is recorded). -/
abbrev LogT := List (Nat × Except ClientError InferResponse)

/-- `TokenProcessor::send_errors`: the `retain` sweep that keeps entries with
`id < start_id` (when a `start_id` was supplied) and sends the error as the
final response of every other entry. -/
def send_errors (entries : List (Nat × Entry)) (error : ClientError)
    (start_id : Option Nat) : List (Nat × Entry) × LogT :=
  match entries with
  | [] => ([], [])
  | (id, e) :: rest =>
    let p := send_errors rest error start_id
    if (match start_id with
        | some sid => decide (id < sid)
        | none => false) then
      ((id, e) :: p.1, p.2)
    else
      (p.1, (id, Except.error error) :: p.2)

/-- The mutable state threaded through one `process_next_tokens` call: the
in-flight map, the log of attempted reply-channel sends, the
`completed_ids` vector, and (mirroring the per-completion log lines of the
source) the terminal reason recorded for each completed id. -/
structure PState where
  entries : List (Nat × Entry)
  log : LogT
  completed : List Nat
  reasons : List (Nat × StopReason)
  deriving Repr

/-- The terminal-response dispatch at the end of a completed entry's step:
build the streaming-final or unary response (`token.unwrap()` aborts when a
streaming entry has no token payload) and record the send, the completed id
and its reason. -/
def finalize (st : PState) (request_id : Nat) (is_stream : Bool)
    (tokenOpt : Option Token) (text : Option String) (e : Entry)
    (stop_reason : StopReason) (d : Decoder) (now : Nat) : Option PState :=
  let respO : Option (Except ClientError InferResponse) :=
    if is_stream then
      match tokenOpt with
      | none => none
      | some tok =>
        (InferResponse.stream_final tok text e stop_reason now).map Except.ok
    else
      (InferResponse.unary e d.seq2seq stop_reason now).map Except.ok
  respO.map fun resp =>
    { entries := removeE request_id st.entries
      log := st.log ++ [(request_id, resp)]
      completed := st.completed ++ [request_id]
      reasons := st.reasons ++ [(request_id, stop_reason)] }

/-- The tail of the per-token loop body of `process_next_tokens`, after the
incremental-decoding step: evaluate the stopping criteria, then dispatch —
terminal response (with decoder flush), streaming in-progress send with
cancellation-on-closed, or the every-16-tokens unary closed-receiver poll. -/
def afterDecode (d : Decoder) (now : Nat) (st : PState)
    (request_id next_token_id : Nat) (is_stream : Bool)
    (tokenOpt : Option Token) (text : Option String) (e : Entry) :
    Option PState :=
  match check_stopping_criteria e next_token_id d.eos_token_id text now with
  | none => none
  | some stop_reason =>
    if stop_reason ≠ StopReason.NotFinished then
      match text with
      | none => finalize st request_id is_stream tokenOpt none e stop_reason d now
      | some t =>
        match e.output with
        | none => none
        | some idec =>
          match idec.flush d with
          | Except.error err =>
            some { entries := removeE request_id st.entries
                   log := st.log ++
                     [(request_id, Except.error (ClientError.Generation err))]
                   completed := st.completed ++ [request_id]
                   reasons := st.reasons ++ [(request_id, stop_reason)] }
          | Except.ok (s2, idec2) =>
            finalize st request_id is_stream tokenOpt (some (t ++ s2))
              { e with output := some idec2 } stop_reason d now
    else if is_stream then
      match tokenOpt with
      | none => none
      | some tok =>
        let resp := InferResponse.stream_inprog tok e.generated_tokens text
        match e.channel with
        | ReplyChannel.streaming closed =>
          if closed then
            some { entries := removeE request_id st.entries
                   log := st.log ++ [(request_id, Except.ok resp)]
                   completed := st.completed ++ [request_id]
                   reasons := st.reasons ++ [(request_id, StopReason.Cancelled)] }
          else
            some { entries := updateE request_id e st.entries
                   log := st.log ++ [(request_id, Except.ok resp)]
                   completed := st.completed
                   reasons := st.reasons }
        | ReplyChannel.unary _ => none
    else
      match e.channel with
      | ReplyChannel.unary closed =>
        if e.generated_tokens % 16 == 0 && closed then
          some { entries := removeE request_id st.entries
                 log := st.log
                 completed := st.completed ++ [request_id]
                 reasons := st.reasons ++ [(request_id, StopReason.Cancelled)] }
        else
          some { entries := updateE request_id e st.entries
                 log := st.log
                 completed := st.completed
                 reasons := st.reasons }
      | ReplyChannel.streaming _ => none

/-- One iteration of the generated-token loop of
`TokenProcessor::process_next_tokens`: locate the entry (abort when the id is
unknown), lazily instantiate its incremental decoder, bump
`generated_tokens`, accumulate token ids for unary entries, run the decoder
(terminating the entry on a decode error), then hand off to `afterDecode`. -/
def processOneToken (d : Decoder) (now : Nat) (st : PState) (output : Token) :
    Option PState :=
  match lookupE output.request_id st.entries with
  | none => none
  | some e0 =>
    let e1 :=
      if e0.generated_tokens == 0 && !e0.request.parameters.stop_seqs.isEmpty
      then { e0 with output := some IncrementalDecoderWrapper.init } else e0
    let e2 := { e1 with generated_tokens := e1.generated_tokens + 1 }
    let is_stream := e2.channel.isStream
    let q : Option Token × Entry :=
      if is_stream then (some output, e2)
      else
        (none,
          { e2 with
            token_ids := e2.token_ids ++ [output.token_id]
            tokens := if e2.request.parameters.include_gen_tokens
                      then e2.tokens ++ [output] else e2.tokens })
    match q.2.output with
    | none =>
      afterDecode d now st output.request_id output.token_id is_stream q.1 none q.2
    | some idec =>
      match idec.next output.token_id d with
      | Except.error err =>
        some { entries := removeE output.request_id st.entries
               log := st.log ++
                 [(output.request_id, Except.error (ClientError.Generation err))]
               completed := st.completed ++ [output.request_id]
               reasons := st.reasons ++ [(output.request_id, StopReason.Error)] }
      | Except.ok (decoded, idec2) =>
        afterDecode d now st output.request_id output.token_id is_stream q.1
          (some decoded) { q.2 with output := some idec2 }

/-- One iteration of the `generate_errors` loop of
`TokenProcessor::process_next_tokens`: locate the entry (abort when the id is
unknown), build the message — the backend message, prefixed with the
generated-token count when it is nonzero — send it as the final response,
remove the entry and record its id as completed. -/
def processOneError (st : PState) (error : GenerateError) : Option PState :=
  match lookupE error.request_id st.entries with
  | none => none
  | some e =>
    let message :=
      if e.generated_tokens == 0 then error.message
      else "Error after generating " ++ toString e.generated_tokens
        ++ " tokens: " ++ error.message
    some { entries := removeE error.request_id st.entries
           log := st.log ++
             [(error.request_id, Except.error (ClientError.Generation message))]
           completed := st.completed ++ [error.request_id]
           reasons := st.reasons ++ [(error.request_id, StopReason.Error)] }

/-- `TokenProcessor::process_next_tokens`: fold the token loop and then the
error loop over the state, and return `none` (the "all completed" sentinel)
exactly when `completed_ids.len() == request_count`, where `request_count`
is the number of generated-token outputs. -/
def process_next_tokens (d : Decoder) (now : Nat)
    (entries : List (Nat × Entry)) (outputs : List Token)
    (errors : List GenerateError) :
    Option (List (Nat × Entry) × LogT × List (Nat × StopReason) × Option (List Nat)) := do
  let s1 ← outputs.foldlM (processOneToken d now) ⟨entries, [], [], []⟩
  let s2 ← errors.foldlM processOneError s1
  pure (s2.entries, s2.log, s2.reasons,
    if s2.completed.length == outputs.length then none else some s2.completed)

/-- One iteration of `TokenProcessor::process_input_tokens`: locate the entry
(abort when the id is unknown), assert that no token has been generated yet,
then either send a dedicated input-tokens event (streaming) or stash the
input tokens on the entry (unary). -/
def processOneInput (st : List (Nat × Entry) × LogT) (input : InputTokens) :
    Option (List (Nat × Entry) × LogT) :=
  match lookupE input.request_id st.1 with
  | none => none
  | some e =>
    if e.generated_tokens == 0 then
      match e.channel with
      | ReplyChannel.streaming _ =>
        some (st.1,
          st.2 ++ [(input.request_id,
            Except.ok (InferResponse.stream_input_info input.tokens))])
      | ReplyChannel.unary _ =>
        some (updateE input.request_id { e with input_tokens := input.tokens } st.1,
          st.2)
    else none

/-- `TokenProcessor::process_input_tokens`. -/
def process_input_tokens (entries : List (Nat × Entry))
    (inputs : List InputTokens) : Option (List (Nat × Entry) × LogT) :=
  inputs.foldlM processOneInput (entries, [])

/-- `TokenProcessor::wrap_future`, applied to the already-awaited result of a
`prefill`/`next_token` call.  On success it runs input-token distribution and
token processing and reports generation health `true`; on `Ok(None)` it
passes the "all completed" signal through untouched; on error it reports
health `false` and sends the error to every entry implied by `start_id`.
The third component records the write (if any) to the generation-health
flag. -/
def wrap_future (d : Decoder) (now : Nat) (entries : List (Nat × Entry))
    (result : Except ClientError
      (Option (List Token × List InputTokens × List GenerateError × Nat)))
    (start_id : Option Nat) :
    Option (List (Nat × Entry) × LogT × Option Bool × Option CachedBatch) :=
  match result with
  | Except.ok (some (generated_tokens, input_tokens, errors, next_batch_id)) => do
    let p1 ← process_input_tokens entries input_tokens
    let p2 ← process_next_tokens d now p1.1 generated_tokens errors
    pure (p2.1, p1.2 ++ p2.2.1, some true,
      some { batch_id := next_batch_id
             status := p2.2.2.2.map fun c => { completed_ids := c } })
  | Except.ok none => some (entries, [], none, none)
  | Except.error err =>
    let p := send_errors entries err start_id
    some (p.1, p.2, some false, none)

/-- The output accumulator of a `ResponseStream`: either plain concatenation
of text deltas (stop-sequence case) or a detached incremental decoder. -/
inductive Accumulator where
  | string (s : String)
  | decoder (idw : IncrementalDecoderWrapper)
  deriving Repr

/-- `Accumulator::into_string`. -/
def Accumulator.into_string : Accumulator → String
  | Accumulator.string s => s
  | Accumulator.decoder idw => idw.intoString

/-- The fields of `ResponseStream` consulted by its `Drop` implementation. -/
structure ResponseStreamState where
  token_count : Nat
  output : Accumulator
  times : Option Times
  stop_reason : StopReason
  err : Option InferError
  deriving Repr

/-- `impl Drop for ResponseStream`: the tuple handed to the caller-supplied
`on_drop` sink, after defaulting a still-`NotFinished` stop reason to
`Error` (an error is pending) or `Cancelled` (none is). -/
def dropReport (s : ResponseStreamState) :
    Nat × StopReason × Option Times × String × Option InferError :=
  let stop_reason :=
    if s.stop_reason = StopReason.NotFinished then
      match s.err with
      | some _ => StopReason.Error
      | none => StopReason.Cancelled
    else s.stop_reason
  (s.token_count, stop_reason, s.times, s.output.into_string, s.err)

/-- Modelled from the spec: the stopping-criteria priority chain exactly as
the spec words it (§4.F(3)), over the six decision inputs, with the
stop-sequence match taken as a given boolean. -/
def stopping_criteria_spec (deadline_elapsed : Bool)
    (generated_tokens min_new_tokens max_new_tokens : Nat)
    (max_is_token_limit : Bool) (is_eos : Bool) (stop_seq_match : Bool) :
    StopReason :=
  if deadline_elapsed then StopReason.TimeLimit
  else if generated_tokens < min_new_tokens then StopReason.NotFinished
  else if is_eos then StopReason.EosToken
  else if max_new_tokens ≤ generated_tokens then
    (if max_is_token_limit then StopReason.TokenLimit else StopReason.MaxTokens)
  else if stop_seq_match then StopReason.StopSequence
  else StopReason.NotFinished

/-- Occurrence of `ss` as a contiguous byte substring of `out` confined to
the suffix of `out` of length `L`: some start position `i` carries a copy of
`ss` that fits inside `out` and starts no earlier than `out.length - L`. -/
def occursWithin (out ss : List UInt8) (L : Nat) : Bool :=
  (List.range (out.length + 1)).any fun i =>
    decide (i + ss.length ≤ out.length) && decide (out.length ≤ i + L) &&
      (((out.drop i).take ss.length) == ss)

/-- Modelled from the spec: the stop reason the C9 claim predicts on drop —
`Error` exactly when the pending error is a decoding (detokenization) error,
`Cancelled` otherwise. -/
def c9_claim_reason (s : ResponseStreamState) : StopReason :=
  if s.stop_reason = StopReason.NotFinished then
    match s.err with
    | some (InferError.DetokenizationError _) => StopReason.Error
    | _ => StopReason.Cancelled
  else s.stop_reason

/-- Iterating the per-token step of `process_next_tokens` over `k` successive
backend steps that each hand the same entry one more token (the repeated
single-entry stepping used to state the cancellation-latency bound). -/
def iterSteps (d : Decoder) (now : Nat) (id tok : Nat) :
    Nat → PState → Option PState
  | 0, st => some st
  | k + 1, st =>
    match processOneToken d now st { request_id := id, token_id := tok } with
    | none => none
    | some st1 => iterSteps d now id tok k st1

/-- The per-step mutation of a retained unary entry with no stop sequences:
one more generated token, the token id accumulated, and the token metadata
accumulated when requested. -/
def bumpEntry (id tok : Nat) (e : Entry) : Entry :=
  { e with
    generated_tokens := e.generated_tokens + 1
    token_ids := e.token_ids ++ [tok]
    tokens := if e.request.parameters.include_gen_tokens
              then e.tokens ++ [{ request_id := id, token_id := tok }]
              else e.tokens }

/-- A trivial concrete decoder instance used for concrete evaluations: every
token decodes to the empty string and flush emits nothing. -/
def cDecoder : Decoder :=
  { eos_token_id := 999
    seq2seq := false
    stepFn := fun _ _ => Except.ok ("", "")
    flushFn := fun _ => Except.ok "" }

/-- A concrete open-channel unary entry with the given `max_new_tokens`,
no stop sequences and no deadline. -/
def c4_entry (mx : Nat) : Entry :=
  { request := { parameters := { max_new_tokens := mx } }
    batch_time := some 0 }

/-- Concrete in-flight map for the C4 counterexample: entry 1 will hit its
token limit this step, entry 2 keeps generating, entry 3 receives a
generation error. -/
def c4_entries : List (Nat × Entry) :=
  [(1, c4_entry 1), (2, c4_entry 10), (3, c4_entry 10)]

/-- Concrete generated tokens for the C4 counterexample. -/
def c4_outputs : List Token :=
  [{ request_id := 1, token_id := 5 }, { request_id := 2, token_id := 5 }]

/-- Concrete per-entry generation errors for the C4 counterexample. -/
def c4_errors : List GenerateError :=
  [{ request_id := 3, message := "boom" }]

/-- Concrete entry for the C5 counterexample: stop sequence `"ab"`,
accumulated decoded output `"abX"` of which `"X"` was added this step. -/
def c5_cex_entry : Entry :=
  { request := { parameters := { stop_seqs := ["ab"] } }
    output := some { emitted := "abX", pending := "" } }

/-- Concrete stream state for the C9 counterexample: dropped while
`NotFinished` with a pending generation (not detokenization) error. -/
def c9_cex_state : ResponseStreamState :=
  { token_count := 3
    output := Accumulator.string "abc"
    times := none
    stop_reason := StopReason.NotFinished
    err := some (InferError.GenerationError "boom") }

/-- The effect of one per-token or per-error iteration of
`process_next_tokens` on the in-flight map and the completed-id list: the
entry under the processed id is either retained (with an updated value) and
no id recorded, or removed with its id appended to the completed list. -/
def StepShape (rid : Nat) (st st' : PState) : Prop :=
  (∃ e', st'.entries = updateE rid e' st.entries ∧ st'.completed = st.completed)
  ∨ (st'.entries = removeE rid st.entries ∧ st'.completed = st.completed ++ [rid])

/-- Invariant threaded through `process_next_tokens`, relative to the
in-flight map at the start of the call: a key is absent exactly when it was
absent initially or has been recorded completed, completed ids are distinct,
and every completed id was initially present. -/
def InvP (init : List (Nat × Entry)) (st : PState) : Prop :=
  (∀ k, lookupE k st.entries = none ↔ (lookupE k init = none ∨ k ∈ st.completed))
  ∧ st.completed.Nodup
  ∧ (∀ k ∈ st.completed, lookupE k init ≠ none)

theorem send_errors_eq (error : ClientError) (start_id : Option Nat) :
    ∀ entries, send_errors entries error start_id =
      (entries.filter fun p =>
          match start_id with
          | some sid => decide (p.1 < sid)
          | none => false,
        (entries.filter fun p =>
          !(match start_id with
            | some sid => decide (p.1 < sid)
            | none => false)).map fun p => (p.1, Except.error error)) := by
  intro entries
  induction entries with
  | nil => rfl
  | cons hd tl ih =>
    obtain ⟨id, e⟩ := hd
    simp only [send_errors, ih]
    cases hc : (match start_id with
                | some sid => decide (id < sid)
                | none => false) <;>
      simp [List.filter_cons, hc]

/-- C2: `should_try_to_grow_batch` returns true iff `waiting_tokens > 5`,
the in-flight count is strictly below the batch-size limit, and at least one
of `waiting_tokens ≥ max_waiting_tokens`, some entry completed in the last
step, or the queue head waiting too long, holds. -/
theorem c2_growth_decision (entries : List (Nat × Entry)) (q : Queue)
    (max_batch_size waiting_tokens max_waiting_tokens : Nat)
    (requests_completed : Bool) :
    should_try_to_grow_batch entries q max_batch_size waiting_tokens
        max_waiting_tokens requests_completed = true ↔
      (5 < waiting_tokens ∧ entries.length < max_batch_size ∧
        (max_waiting_tokens ≤ waiting_tokens ∨ requests_completed = true ∨
          q.next_entry_waiting_too_long = true)) := by
  simp [should_try_to_grow_batch, and_assoc, or_assoc]

/-- C6: `some_completed` returns true iff the cached batch's `status` field
is absent or its `completed_ids` list is non-empty; in particular an absent
status counts as "some completed". -/
theorem c6_some_completed (batch : CachedBatch) :
    some_completed batch = true ↔
      (batch.status = none ∨
        ∃ s, batch.status = some s ∧ s.completed_ids ≠ []) := by
  cases hs : batch.status with
  | none => simp [some_completed, hs]
  | some s =>
    cases hc : s.completed_ids <;>
      simp [some_completed, hs, List.isEmpty, hc]

/-- C9 (amended): on drop, the stream reports exactly
`(token_count, reason, times, accumulated_text, last_error)`, where the
reason is the observed stop reason unless it is still `NotFinished`, in
which case it is `Error` when any error is pending and `Cancelled`
otherwise. -/
theorem c9_drop_report (s : ResponseStreamState) :
    dropReport s = (s.token_count,
      (if s.stop_reason = StopReason.NotFinished then
        (if s.err.isSome then StopReason.Error else StopReason.Cancelled)
       else s.stop_reason),
      s.times, s.output.into_string, s.err) := by
  unfold dropReport
  cases herr : s.err <;> simp [herr]

/-- C9 counterexample: a stream dropped while still `NotFinished` with a
pending generation (not detokenization) error is reported with reason
`Error`, whereas the claim — reason `Error` only when a decoding error is
pending, `Cancelled` otherwise — predicts `Cancelled` here. -/
theorem c9_drop_report_cex :
    (dropReport c9_cex_state).2.1 = StopReason.Error ∧
      c9_claim_reason c9_cex_state = StopReason.Cancelled ∧
      StopReason.Error ≠ StopReason.Cancelled :=
  ⟨rfl, rfl, by decide⟩

/-- C3: when a backend call fails, `wrap_future` reports unhealthy and
`send_errors` terminates exactly the implied id set: with a `start_id`, the
entries with `id < start_id` are retained unchanged and every entry with
`id ≥ start_id` is removed and receives the error as its final response;
without one, every entry is removed and receives the error. -/
theorem c3_send_errors (d : Decoder) (now : Nat)
    (entries : List (Nat × Entry)) (err : ClientError) :
    (∀ sid, wrap_future d now entries (Except.error err) (some sid) =
      some (entries.filter fun p => decide (p.1 < sid),
        (entries.filter fun p => !decide (p.1 < sid)).map
          (fun p => (p.1, Except.error err)),
        some false, none))
    ∧ wrap_future d now entries (Except.error err) none =
      some ([], entries.map (fun p => (p.1, Except.error err)),
        some false, none) := by
  constructor
  · intro sid
    simp [wrap_future, send_errors_eq]
  · simp [wrap_future, send_errors_eq]

/-- C1: `check_stopping_criteria` evaluates the stopping criteria in the
spec's priority order with first match winning: elapsed deadline, then the
minimum-token override, then eos, then the token limit (`TokenLimit` or
`MaxTokens` by `max_is_token_limit`), then stop-sequence match, else
`NotFinished`.  Stated as refinement against `stopping_criteria_spec`, the
chain written from the spec's words, whenever the stop-sequence check
returns a value `b`. -/
theorem c1_stopping_priority (e : Entry) (last_token_id eos_token_id : Nat)
    (last_text : Option String) (now : Nat) (b : Bool)
    (h : matches_stop_sequence e last_text = some b) :
    check_stopping_criteria e last_token_id eos_token_id last_text now =
      some (stopping_criteria_spec
        (match e.request.parameters.deadline with
         | some deadline => decide (deadline < now)
         | none => false)
        e.generated_tokens e.request.parameters.min_new_tokens
        e.request.parameters.max_new_tokens
        e.request.parameters.max_is_token_limit
        (last_token_id == eos_token_id) b) := by
  unfold check_stopping_criteria stopping_criteria_spec
  rw [h]
  dsimp only
  split_ifs <;> rfl

/-- C1 witness: a concrete entry whose stop-sequence check returns a value,
evaluated through the priority chain. -/
theorem c1_stopping_priority_witness :
    matches_stop_sequence (c4_entry 10) none = some false ∧
      check_stopping_criteria (c4_entry 10) 5 9 none 0 =
        some (stopping_criteria_spec false 0 0 10 false false false) :=
  ⟨rfl, c1_stopping_priority (c4_entry 10) 5 9 none 0 false rfl⟩

theorem hasWindow_iff (s ss : List UInt8) :
    hasWindow s ss = true ↔
      ∃ i, i + ss.length ≤ s.length ∧ (s.drop i).take ss.length = ss := by
  unfold hasWindow
  rw [List.any_eq_true]
  constructor
  · rintro ⟨j, hj, hw⟩
    rw [List.mem_range] at hj
    exact ⟨j, by omega, by simpa using hw⟩
  · rintro ⟨i, hi, hw⟩
    exact ⟨i, List.mem_range.mpr (by omega), by simpa using hw⟩

theorem occursWithin_iff (out ss : List UInt8) (L : Nat) :
    occursWithin out ss L = true ↔
      ∃ i, i + ss.length ≤ out.length ∧ out.length ≤ i + L ∧
        (out.drop i).take ss.length = ss := by
  unfold occursWithin
  rw [List.any_eq_true]
  constructor
  · rintro ⟨i, hi, hw⟩
    simp only [Bool.and_eq_true, decide_eq_true_eq, beq_iff_eq] at hw
    exact ⟨i, hw.1.1, hw.1.2, hw.2⟩
  · rintro ⟨i, h1, h2, h3⟩
    refine ⟨i, List.mem_range.mpr (by omega), ?_⟩
    simp only [Bool.and_eq_true, decide_eq_true_eq, beq_iff_eq]
    exact ⟨⟨h1, h2⟩, h3⟩

theorem window_shift (out ss : List UInt8) (tlen : Nat)
    (hss : 1 ≤ ss.length) (ht : tlen ≤ out.length) :
    (hasWindow (out.drop (out.length + 1 - tlen - ss.length)) ss = true ↔
      occursWithin out ss (ss.length + tlen - 1) = true) := by
  rw [hasWindow_iff, occursWithin_iff]
  constructor
  · rintro ⟨j, hj, hw⟩
    rw [List.length_drop] at hj
    rw [List.drop_drop] at hw
    exact ⟨out.length + 1 - tlen - ss.length + j, by omega, by omega, hw⟩
  · rintro ⟨i, h1, h2, h3⟩
    have hi : out.length + 1 - tlen - ss.length ≤ i := by omega
    refine ⟨i - (out.length + 1 - tlen - ss.length), ?_, ?_⟩
    · rw [List.length_drop]; omega
    · rw [List.drop_drop,
        show out.length + 1 - tlen - ss.length +
          (i - (out.length + 1 - tlen - ss.length)) = i by omega]
      exact h3

theorem anyStopMatch_eq (out : List UInt8) (tlen : Nat) (ht : tlen ≤ out.length) :
    ∀ seqs : List (List UInt8), (∀ ss ∈ seqs, ss ≠ []) →
      anyStopMatch out (out.length + 1 - tlen) seqs =
        some (seqs.any fun ss => occursWithin out ss (ss.length + tlen - 1)) := by
  intro seqs
  induction seqs with
  | nil => intro _; rfl
  | cons ss rest ih =>
    intro hne
    have hss : ss ≠ [] := hne ss (by simp)
    have hss1 : 1 ≤ ss.length := by
      cases ss with
      | nil => exact absurd rfl hss
      | cons a l => simp
    unfold anyStopMatch
    rw [if_neg (by omega : ¬ ss.length = 0)]
    simp only
    rw [if_neg (by omega : ¬ out.length < out.length + 1 - tlen - ss.length)]
    rw [List.any_cons]
    by_cases hw : hasWindow (out.drop (out.length + 1 - tlen - ss.length)) ss = true
    · rw [if_pos hw, (window_shift out ss tlen hss1 ht).mp hw]
      simp
    · rw [if_neg hw, ih fun s hs => hne s (by simp [hs])]
      have hocc : occursWithin out ss (ss.length + tlen - 1) = false := by
        cases h : occursWithin out ss (ss.length + tlen - 1) with
        | false => rfl
        | true => exact absurd ((window_shift out ss tlen hss1 ht).mpr h) hw
      rw [hocc]
      simp

theorem matches_stop_bytes_eq (out text : List UInt8) (seqs : List (List UInt8))
    (ht : text.length ≤ out.length) (hne : ∀ ss ∈ seqs, ss ≠ []) :
    matches_stop_bytes out text seqs =
      some (seqs.any fun ss => occursWithin out ss (ss.length + text.length - 1)) := by
  unfold matches_stop_bytes
  rw [if_neg (by omega)]
  exact anyStopMatch_eq out text.length ht seqs hne

theorem take_drop_decomp (out ss : List UInt8) (i : Nat)
    (h : (out.drop i).take ss.length = ss) :
    ∃ pre post, out = pre ++ ss ++ post := by
  refine ⟨out.take i, out.drop (i + ss.length), ?_⟩
  have h2 : (out.drop i).take ss.length ++ (out.drop i).drop ss.length = out.drop i :=
    List.take_append_drop _ _
  rw [h, List.drop_drop] at h2
  conv_lhs => rw [← List.take_append_drop i out, ← h2]
  exact (List.append_assoc _ _ _).symm

theorem anyStopMatch_true_infix (out : List UInt8) (no : Nat) :
    ∀ seqs, anyStopMatch out no seqs = some true →
      ∃ ss ∈ seqs, ∃ pre post, out = pre ++ ss ++ post := by
  intro seqs
  induction seqs with
  | nil => intro h; exact absurd h (by simp [anyStopMatch])
  | cons ss rest ih =>
    intro h
    unfold anyStopMatch at h
    by_cases h0 : ss.length = 0
    · rw [if_pos h0] at h; exact absurd h (by simp)
    rw [if_neg h0] at h
    simp only at h
    by_cases h1 : out.length < no - ss.length
    · rw [if_pos h1] at h; exact absurd h (by simp)
    rw [if_neg h1] at h
    by_cases hw : hasWindow (out.drop (no - ss.length)) ss = true
    · obtain ⟨j, _, hww⟩ := (hasWindow_iff _ _).mp hw
      rw [List.drop_drop] at hww
      exact ⟨ss, by simp, take_drop_decomp out ss _ hww⟩
    · rw [if_neg hw] at h
      obtain ⟨ss', hmem, hpp⟩ := ih h
      exact ⟨ss', by simp [hmem], hpp⟩

theorem matches_stop_bytes_true_infix (out text : List UInt8)
    (seqs : List (List UInt8)) (h : matches_stop_bytes out text seqs = some true) :
    ∃ ss ∈ seqs, ∃ pre post, out = pre ++ ss ++ post := by
  unfold matches_stop_bytes at h
  by_cases hu : out.length + 1 < text.length
  · rw [if_pos hu] at h; exact absurd h (by simp)
  · rw [if_neg hu] at h
    exact anyStopMatch_true_infix out _ seqs h

theorem check_stop_sequence_infix (e : Entry) (ltid eos : Nat)
    (lt : Option String) (now : Nat)
    (h : check_stopping_criteria e ltid eos lt now = some StopReason.StopSequence) :
    ∃ idec, e.output = some idec ∧
      ∃ ss ∈ e.request.parameters.stop_seqs,
        ∃ pre post, strBytes idec.output = pre ++ strBytes ss ++ post := by
  unfold check_stopping_criteria at h
  split_ifs at h <;> try exact absurd h (by simp)
  cases hm : matches_stop_sequence e lt with
  | none => rw [hm] at h; exact absurd h (by simp)
  | some b =>
    rw [hm] at h
    cases b with
    | false => exact absurd h (by simp)
    | true =>
      unfold matches_stop_sequence at hm
      cases hlt : lt with
      | none => rw [hlt] at hm; exact absurd hm (by simp)
      | some text =>
        rw [hlt] at hm
        cases ho : e.output with
        | none => rw [ho] at hm; exact absurd hm (by simp)
        | some idec =>
          rw [ho] at hm
          obtain ⟨ss', hmem, hpp⟩ := matches_stop_bytes_true_infix _ _ _ hm
          obtain ⟨ss, hss, rfl⟩ := List.mem_map.mp hmem
          exact ⟨idec, rfl, ss, hss, hpp⟩

/-- C5 (amended): the stop-sequence check operates on the bytes of the
accumulated decoded output, and — given that the accumulated output is at
least as long as the bytes added this step and every stop sequence is
non-empty — `matches_stop_bytes` returns true iff some stop sequence occurs
as a contiguous byte substring within the suffix window of the accumulated
output of length `|stop_seq| + (bytes added this step) - 1` (one byte
shorter than the claimed `|stop_seq| + bytes_added`: only occurrences
extending strictly past the previously checked output are found);
consequently, whenever the stopping criteria yield `StopSequence`, the
accumulated output contains some stop sequence. -/
theorem c5_stop_window :
    (∀ (out text : List UInt8) (seqs : List (List UInt8)),
      text.length ≤ out.length → (∀ ss ∈ seqs, ss ≠ []) →
      (matches_stop_bytes out text seqs = some true ↔
        ∃ ss ∈ seqs, occursWithin out ss (ss.length + text.length - 1) = true))
    ∧ (∀ (e : Entry) (ltid eos : Nat) (lt : Option String) (now : Nat),
        check_stopping_criteria e ltid eos lt now = some StopReason.StopSequence →
        ∃ idec, e.output = some idec ∧
          ∃ ss ∈ e.request.parameters.stop_seqs,
            ∃ pre post, strBytes idec.output = pre ++ strBytes ss ++ post) := by
  constructor
  · intro out text seqs ht hne
    rw [matches_stop_bytes_eq out text seqs ht hne]
    simp [List.any_eq_true]
  · exact fun e ltid eos lt now h => check_stop_sequence_infix e ltid eos lt now h

/-- C5 witness: a concrete match found inside the corrected window, and a
concrete entry whose `StopSequence` terminal implies containment. -/
theorem c5_stop_window_witness :
    (matches_stop_bytes [97, 98, 88] [88] [[98, 88]] = some true ↔
      ∃ ss ∈ [[98, 88]],
        occursWithin [97, 98, 88] ss (ss.length + [(88 : UInt8)].length - 1) = true)
    ∧ ∃ idec,
        ({ request := { parameters := { stop_seqs := ["b"], max_new_tokens := 5 } }
           generated_tokens := 1
           output := some { emitted := "ab", pending := "" } } : Entry).output
          = some idec ∧
        ∃ ss ∈ ["b"], ∃ pre post, strBytes idec.output = pre ++ strBytes ss ++ post :=
  ⟨c5_stop_window.1 [97, 98, 88] [88] [[98, 88]] (by decide) (by decide),
   c5_stop_window.2
     { request := { parameters := { stop_seqs := ["b"], max_new_tokens := 5 } }
       generated_tokens := 1
       output := some { emitted := "ab", pending := "" } }
     1 999 (some "b") 0 (by decide)⟩

/-- C5 counterexample: stop sequence `"ab"`, accumulated output `"abX"`,
one byte `"X"` added this step.  The occurrence of `"ab"` lies within the
suffix window of the claimed length `|ss| + bytes_added = 3`, yet
`matches_stop_sequence` returns false — the source's effective window is one
byte shorter, so a match ending exactly at the previously checked boundary
is not found. -/
theorem c5_stop_window_cex :
    matches_stop_sequence c5_cex_entry (some "X") = some false ∧
      occursWithin (strBytes "abX") (strBytes "ab")
        ((strBytes "ab").length + (strBytes "X").length) = true :=
  ⟨by decide, by decide⟩

/-- C10: when every stop sequence is a non-empty byte string and the
accumulated output is at least as long as the bytes added this step, the
stop-sequence search never aborts: the underflow-checked offset and the
window start stay within the output and every `windows` call has positive
length.  The middle conjunct shows the precondition is needed: an empty
stop sequence reaches `windows(0)`, which aborts.  The last conjunct lifts
totality to `matches_stop_sequence` on an entry. -/
theorem c10_matches_total :
    (∀ (out text : List UInt8) (seqs : List (List UInt8)),
      text.length ≤ out.length → (∀ ss ∈ seqs, ss ≠ []) →
      (matches_stop_bytes out text seqs).isSome = true)
    ∧ matches_stop_bytes [97] [] [[]] = none
    ∧ (∀ (e : Entry) (text : String) (idec : IncrementalDecoderWrapper),
        e.output = some idec →
        (strBytes text).length ≤ (strBytes idec.output).length →
        (∀ ss ∈ e.request.parameters.stop_seqs, strBytes ss ≠ []) →
        (matches_stop_sequence e (some text)).isSome = true) := by
  refine ⟨?_, by decide, ?_⟩
  · intro out text seqs ht hne
    rw [matches_stop_bytes_eq out text seqs ht hne]
    rfl
  · intro e text idec ho ht hne
    unfold matches_stop_sequence
    rw [ho]
    dsimp only
    have hne' : ∀ ss ∈ e.request.parameters.stop_seqs.map strBytes, ss ≠ [] := by
      intro ss hss
      obtain ⟨s, hs, rfl⟩ := List.mem_map.mp hss
      exact hne s hs
    rw [matches_stop_bytes_eq _ _ _ ht hne']
    rfl

/-- C10 witness: concrete totality at the byte level and at the entry
level. -/
theorem c10_matches_total_witness :
    (matches_stop_bytes [97, 98] [98] [[97]]).isSome = true ∧
      (matches_stop_sequence
        { request := { parameters := { stop_seqs := ["ab"] } }
          output := some { emitted := "abX", pending := "" } }
        (some "X")).isSome = true :=
  ⟨c10_matches_total.1 [97, 98] [98] [[97]] (by decide) (by decide),
   c10_matches_total.2.2
     { request := { parameters := { stop_seqs := ["ab"] } }
       output := some { emitted := "abX", pending := "" } }
     "X" { emitted := "abX", pending := "" } rfl (by decide) (by decide)⟩

/-- C8: a per-entry generation error terminates the referenced entry: it is
removed from the in-flight map and receives a terminal error response whose
message equals the backend's message when the entry has generated no tokens,
and the backend's message prefixed with
"Error after generating N tokens: " when it has generated N > 0. -/
theorem c8_generation_error (st : PState) (ge : GenerateError) (e : Entry)
    (h : lookupE ge.request_id st.entries = some e) :
    processOneError st ge =
      some { entries := removeE ge.request_id st.entries
             log := st.log ++ [(ge.request_id, Except.error (ClientError.Generation
               (if e.generated_tokens == 0 then ge.message
                else "Error after generating " ++ toString e.generated_tokens
                  ++ " tokens: " ++ ge.message)))]
             completed := st.completed ++ [ge.request_id]
             reasons := st.reasons ++ [(ge.request_id, StopReason.Error)] } := by
  unfold processOneError
  rw [h]

/-- C8 witness: a concrete entry with three generated tokens receives the
prefixed message and is removed. -/
theorem c8_generation_error_witness :
    processOneError ⟨[(7, { generated_tokens := 3 })], [], [], []⟩
        { request_id := 7, message := "bad" } =
      some ⟨[], [(7, Except.error
          (ClientError.Generation "Error after generating 3 tokens: bad"))],
        [7], [(7, StopReason.Error)]⟩ := by
  rw [c8_generation_error ⟨[(7, { generated_tokens := 3 })], [], [], []⟩
    { request_id := 7, message := "bad" } { generated_tokens := 3 } rfl]
  rfl

theorem lookupE_updateE (k id : Nat) (e' : Entry) :
    ∀ l, lookupE k (updateE id e' l) =
      if k = id then (lookupE id l).map (fun _ => e') else lookupE k l := by
  intro l
  induction l with
  | nil =>
    simp only [updateE, List.map_nil, lookupE]
    split <;> rfl
  | cons hd tl ih =>
    obtain ⟨a, e⟩ := hd
    have hcons : updateE id e' ((a, e) :: tl) =
        (if a = id then (id, e') else (a, e)) :: updateE id e' tl := rfl
    rw [hcons]
    by_cases hai : a = id
    · subst hai
      rw [if_pos rfl]
      by_cases hk : k = a
      · subst hk
        simp [lookupE]
      · simp [lookupE, hk, ih]
    · rw [if_neg hai]
      by_cases hk : k = a
      · subst hk
        simp [lookupE, hai, Ne.symm hai]
      · simp [lookupE, hk, ih, Ne.symm hai]

theorem lookupE_removeE (k id : Nat) :
    ∀ l, lookupE k (removeE id l) = if k = id then none else lookupE k l := by
  intro l
  induction l with
  | nil =>
    simp only [removeE, List.filter_nil, lookupE]
    split <;> rfl
  | cons hd tl ih =>
    obtain ⟨a, e⟩ := hd
    simp only [removeE, List.filter_cons] at ih ⊢
    by_cases hai : a = id
    · subst hai
      simp only [beq_self_eq_true, Bool.not_true, Bool.false_eq_true, if_false]
      by_cases hk : k = a
      · subst hk
        simp [ih]
      · simp [ih, lookupE, hk]
    · have hba : ((a == id) : Bool) = false := by
        simp [hai]
      simp only [hba, Bool.not_false, if_true]
      by_cases hk : k = a
      · subst hk
        have : ¬ k = id := hai
        simp [lookupE, this]
      · simp [lookupE, hk, ih]

theorem lookupE_eq_none_iff (k : Nat) :
    ∀ l : List (Nat × Entry), lookupE k l = none ↔ k ∉ l.map Prod.fst := by
  intro l
  induction l with
  | nil => simp [lookupE]
  | cons hd tl ih =>
    obtain ⟨a, e⟩ := hd
    by_cases hk : k = a
    · subst hk
      simp [lookupE]
    · simp [lookupE, hk, ih]

theorem finalize_shape (st : PState) (rid : Nat) (is_stream : Bool)
    (tokenOpt : Option Token) (text : Option String) (e : Entry)
    (sr : StopReason) (d : Decoder) (now : Nat) (st' : PState)
    (h : finalize st rid is_stream tokenOpt text e sr d now = some st') :
    st'.entries = removeE rid st.entries ∧
      st'.completed = st.completed ++ [rid] := by
  unfold finalize at h
  obtain ⟨resp, _, hst⟩ := Option.map_eq_some'.mp h
  subst hst
  exact ⟨rfl, rfl⟩

theorem afterDecode_shape (d : Decoder) (now : Nat) (st : PState)
    (rid ntid : Nat) (is_stream : Bool) (tokenOpt : Option Token)
    (text : Option String) (e : Entry) (st' : PState)
    (h : afterDecode d now st rid ntid is_stream tokenOpt text e = some st') :
    StepShape rid st st' := by
  unfold afterDecode at h
  cases hc : check_stopping_criteria e ntid d.eos_token_id text now with
  | none => rw [hc] at h; exact absurd h (by simp)
  | some sr =>
    rw [hc] at h
    dsimp only at h
    by_cases hsr : sr ≠ StopReason.NotFinished
    · rw [if_pos hsr] at h
      cases text with
      | none => exact Or.inr (finalize_shape _ _ _ _ _ _ _ _ _ _ h)
      | some t =>
        cases ho : e.output with
        | none => rw [ho] at h; exact absurd h (by simp)
        | some idec =>
          rw [ho] at h
          dsimp only at h
          cases hf : idec.flush d with
          | error err =>
            rw [hf] at h
            obtain rfl := Option.some.inj h
            exact Or.inr ⟨rfl, rfl⟩
          | ok p =>
            rw [hf] at h
            exact Or.inr (finalize_shape _ _ _ _ _ _ _ _ _ _ h)
    · rw [if_neg hsr] at h
      cases his : is_stream with
      | true =>
        rw [his] at h
        simp only [if_true] at h
        cases tokenOpt with
        | none => exact absurd h (by simp)
        | some tok =>
          cases hch : e.channel with
          | streaming closed =>
            rw [hch] at h
            dsimp only at h
            cases closed with
            | true =>
              simp only [if_true] at h
              obtain rfl := Option.some.inj h
              exact Or.inr ⟨rfl, rfl⟩
            | false =>
              simp only [Bool.false_eq_true, if_false] at h
              obtain rfl := Option.some.inj h
              exact Or.inl ⟨e, rfl, rfl⟩
          | unary _ =>
            rw [hch] at h
            exact absurd h (by simp)
      | false =>
        rw [his] at h
        simp only [Bool.false_eq_true, if_false] at h
        cases hch : e.channel with
        | unary closed =>
          rw [hch] at h
          dsimp only at h
          by_cases h16 : (e.generated_tokens % 16 == 0 && closed) = true
          · rw [if_pos h16] at h
            obtain rfl := Option.some.inj h
            exact Or.inr ⟨rfl, rfl⟩
          · rw [if_neg h16] at h
            obtain rfl := Option.some.inj h
            exact Or.inl ⟨e, rfl, rfl⟩
        | streaming _ =>
          rw [hch] at h
          exact absurd h (by simp)

theorem processOneToken_shape (d : Decoder) (now : Nat) (st : PState)
    (tk : Token) (st' : PState)
    (h : processOneToken d now st tk = some st') :
    lookupE tk.request_id st.entries ≠ none ∧ StepShape tk.request_id st st' := by
  unfold processOneToken at h
  cases hl : lookupE tk.request_id st.entries with
  | none => rw [hl] at h; exact absurd h (by simp)
  | some e0 =>
    rw [hl] at h
    refine ⟨by simp, ?_⟩
    dsimp only at h
    split at h
    · exact afterDecode_shape _ _ _ _ _ _ _ _ _ _ h
    · split at h
      · obtain rfl := Option.some.inj h
        exact Or.inr ⟨rfl, rfl⟩
      · exact afterDecode_shape _ _ _ _ _ _ _ _ _ _ h

theorem processOneError_shape (st : PState) (ge : GenerateError) (st' : PState)
    (h : processOneError st ge = some st') :
    lookupE ge.request_id st.entries ≠ none ∧ StepShape ge.request_id st st' := by
  unfold processOneError at h
  cases hl : lookupE ge.request_id st.entries with
  | none => rw [hl] at h; exact absurd h (by simp)
  | some e =>
    rw [hl] at h
    dsimp only at h
    obtain rfl := Option.some.inj h
    exact ⟨by simp, Or.inr ⟨rfl, rfl⟩⟩

theorem shape_preserves_inv (init : List (Nat × Entry)) (rid : Nat)
    (st st' : PState) (hpres : lookupE rid st.entries ≠ none)
    (hs : StepShape rid st st') (hinv : InvP init st) : InvP init st' := by
  obtain ⟨h1, h2, h3⟩ := hinv
  have hrid : ¬ (lookupE rid init = none ∨ rid ∈ st.completed) := by
    intro hcon
    exact hpres ((h1 rid).mpr hcon)
  rcases hs with ⟨e', hent, hcomp⟩ | ⟨hent, hcomp⟩
  · refine ⟨?_, hcomp ▸ h2, hcomp ▸ h3⟩
    intro k
    rw [hent, hcomp, lookupE_updateE]
    by_cases hk : k = rid
    · subst hk
      rw [if_pos rfl]
      cases hrl : lookupE k st.entries with
      | none => exact absurd hrl hpres
      | some a =>
        have hne := (h1 k).not
        rw [hrl] at hne
        simp only [Option.map_some']
        constructor
        · intro hcon; exact absurd hcon (by simp)
        · intro hcon; exact absurd hcon (hne.mp (by simp))
    · rw [if_neg hk]
      exact h1 k
  · refine ⟨?_, ?_, ?_⟩
    · intro k
      rw [hent, hcomp, lookupE_removeE]
      by_cases hk : k = rid
      · subst hk
        rw [if_pos rfl]
        simp
      · rw [if_neg hk, h1 k]
        simp [List.mem_append, hk]
    · rw [hcomp]
      have hnot : rid ∉ st.completed := fun hmem => hrid (Or.inr hmem)
      simp [List.nodup_append, h2, hnot]
    · rw [hcomp]
      intro k hk
      rw [List.mem_append] at hk
      rcases hk with hk | hk
      · exact h3 k hk
      · have : k = rid := by simpa using hk
        subst this
        intro hcon
        exact hrid (Or.inl hcon)

theorem foldlM_shape_inv {α : Type} (f : PState → α → Option PState)
    (rid : α → Nat)
    (hstep : ∀ st a st', f st a = some st' →
      lookupE (rid a) st.entries ≠ none ∧ StepShape (rid a) st st')
    (init : List (Nat × Entry)) :
    ∀ (l : List α) (st st' : PState), InvP init st →
      List.foldlM f st l = some st' → InvP init st' := by
  intro l
  induction l with
  | nil =>
    intro st st' hi h
    simp only [List.foldlM_nil] at h
    obtain rfl := Option.some.inj h
    exact hi
  | cons a l ih =>
    intro st st' hi h
    rw [List.foldlM_cons] at h
    cases hfa : f st a with
    | none => rw [hfa] at h; exact absurd h (by simp)
    | some st1 =>
      rw [hfa] at h
      obtain ⟨hp, hsh⟩ := hstep st a st1 hfa
      exact ih st1 st' (shape_preserves_inv init (rid a) st st1 hp hsh hi) h

theorem option_bind_some {α β : Type} (a : α) (f : α → Option β) :
    (some a >>= f) = f a := rfl

theorem option_bind_none {α β : Type} (f : α → Option β) :
    ((none : Option α) >>= f) = none := rfl

/-- C4 (amended): relative to the in-flight entries at the start of the
call, `process_next_tokens` returns the "all completed" sentinel `none` iff
the number of entries terminated during the call equals the number of
generated-token outputs (the source's `request_count`) — which coincides
with "every entry in the call terminated" only when terminated entries and
token outputs are in bijection; otherwise it returns exactly the set of
entry ids terminated this step. -/
theorem c4_completed_sentinel (d : Decoder) (now : Nat)
    (entries : List (Nat × Entry)) (outputs : List Token)
    (errors : List GenerateError) (es : List (Nat × Entry)) (lg : LogT)
    (rs : List (Nat × StopReason)) (ret : Option (List Nat))
    (hnd : (entries.map Prod.fst).Nodup)
    (h : process_next_tokens d now entries outputs errors = some (es, lg, rs, ret)) :
    (ret = none ↔
      ((entries.map Prod.fst).filter fun k => (lookupE k es).isNone).length
        = outputs.length)
    ∧ (∀ l, ret = some l → l.Nodup ∧
        ∀ k, k ∈ l ↔
          k ∈ (entries.map Prod.fst).filter fun k => (lookupE k es).isNone) := by
  have hinv0 : InvP entries ⟨entries, [], [], []⟩ :=
    ⟨fun k => by simp, List.nodup_nil, by simp⟩
  unfold process_next_tokens at h
  cases hf1 : List.foldlM (processOneToken d now) (⟨entries, [], [], []⟩ : PState) outputs with
  | none => rw [hf1, option_bind_none] at h; exact absurd h (by simp)
  | some s1 =>
    rw [hf1, option_bind_some] at h
    cases hf2 : List.foldlM processOneError s1 errors with
    | none => rw [hf2, option_bind_none] at h; exact absurd h (by simp)
    | some s2 =>
      rw [hf2, option_bind_some] at h
      simp only [pure, Option.some.injEq, Prod.mk.injEq] at h
      obtain ⟨h_es, _, _, h_ret⟩ := h
      subst h_es
      have hinv1 : InvP entries s1 :=
        foldlM_shape_inv (processOneToken d now) (fun tk => tk.request_id)
          (fun st a st' hh => processOneToken_shape d now st a st' hh)
          entries outputs ⟨entries, [], [], []⟩ s1 hinv0 hf1
      have hinv2 : InvP entries s2 :=
        foldlM_shape_inv processOneError (fun ge => ge.request_id)
          (fun st a st' hh => processOneError_shape st a st' hh)
          entries errors s1 s2 hinv1 hf2
      obtain ⟨h1, h2, h3⟩ := hinv2
      have memb : ∀ k,
          k ∈ ((entries.map Prod.fst).filter
            fun k => (lookupE k s2.entries).isNone) ↔ k ∈ s2.completed := by
        intro k
        rw [List.mem_filter]
        constructor
        · rintro ⟨hkmem, hknone⟩
          have hnone : lookupE k s2.entries = none := by
            simpa [Option.isNone_iff_eq_none] using hknone
          rcases (h1 k).mp hnone with hinit | hcomp
          · exact absurd ((lookupE_eq_none_iff k entries).mp hinit)
              (by simpa using hkmem)
          · exact hcomp
        · intro hcomp
          refine ⟨?_, ?_⟩
          · by_contra hnm
            exact h3 k hcomp ((lookupE_eq_none_iff k entries).mpr hnm)
          · have hnone : lookupE k s2.entries = none := (h1 k).mpr (Or.inr hcomp)
            simp [Option.isNone_iff_eq_none, hnone]
      have tnodup : ((entries.map Prod.fst).filter
          fun k => (lookupE k s2.entries).isNone).Nodup :=
        List.Nodup.filter _ hnd
      have hlen : s2.completed.length =
          ((entries.map Prod.fst).filter
            fun k => (lookupE k s2.entries).isNone).length :=
        ((List.perm_ext_iff_of_nodup h2 tnodup).mpr
          fun k => (memb k).symm).length_eq
      constructor
      · rw [← h_ret]
        by_cases hc : s2.completed.length = outputs.length
        · simp [hc, ← hlen]
        · simp [hc, ← hlen, Nat.ne_of_beq_eq_false]
      · intro l hl
        rw [← h_ret] at hl
        by_cases hc : s2.completed.length = outputs.length
        · rw [if_pos (by simpa using hc)] at hl
          exact absurd hl (by simp)
        · rw [if_neg (by simpa using hc)] at hl
          obtain rfl := (Option.some.inj hl).symm
          exact ⟨h2, fun k => (memb k).symm⟩

/-- C4 counterexample: two generated-token outputs (entry 1 terminates at
its token limit, entry 2 does not) together with one generation error
(entry 3).  The completed count (2) equals the output count (2), so the call
returns the "all completed" sentinel (`isNone = true`) although entry 2 — an
entry of the call — did not terminate and is still in the in-flight map
(`isSome = true`). -/
theorem c4_completed_sentinel_cex :
    (process_next_tokens cDecoder 0 c4_entries c4_outputs c4_errors).map
      (fun r => ((r.2.2.2).isNone, (lookupE 2 r.1).isSome)) = some (true, true) := by
  rfl

/-- C4 witness: a single non-terminating entry, one output token, no
errors — the sentinel is not returned and the terminated-id count is 0. -/
theorem c4_completed_sentinel_witness :
    ∃ es lg rs ret,
      process_next_tokens cDecoder 0 [(1, c4_entry 10)]
          [{ request_id := 1, token_id := 5 }] [] = some (es, lg, rs, ret) ∧
        (ret = none ↔
          (([(1, c4_entry 10)].map Prod.fst).filter
            fun k => (lookupE k es).isNone).length
            = [({ request_id := 1, token_id := 5 } : Token)].length) := by
  refine ⟨_, _, _, _, rfl, ?_⟩
  exact (c4_completed_sentinel cDecoder 0 [(1, c4_entry 10)]
    [{ request_id := 1, token_id := 5 }] [] _ _ _ _ (by simp) rfl).1

theorem check_notFinished (e : Entry) (ltid eos : Nat) (lt : Option String)
    (now : Nat) (hdl : e.request.parameters.deadline = none)
    (hmin : e.generated_tokens < e.request.parameters.min_new_tokens) :
    check_stopping_criteria e ltid eos lt now = some StopReason.NotFinished := by
  unfold check_stopping_criteria
  rw [hdl]
  simp [hmin]

theorem bumpEntry_gen (id tok : Nat) (e : Entry) :
    (bumpEntry id tok e).generated_tokens = e.generated_tokens + 1 := rfl

theorem bumpEntry_channel (id tok : Nat) (e : Entry) :
    (bumpEntry id tok e).channel = e.channel := rfl

theorem bumpEntry_output (id tok : Nat) (e : Entry) :
    (bumpEntry id tok e).output = e.output := rfl

theorem bumpEntry_request (id tok : Nat) (e : Entry) :
    (bumpEntry id tok e).request = e.request := rfl

theorem afterDecode_stream_closed (d : Decoder) (now : Nat) (st : PState)
    (id ntid : Nat) (tok : Token) (e' : Entry)
    (hch : e'.channel = ReplyChannel.streaming true)
    (hdl : e'.request.parameters.deadline = none)
    (hmin : e'.generated_tokens < e'.request.parameters.min_new_tokens) :
    afterDecode d now st id ntid true (some tok) none e' =
      some { entries := removeE id st.entries
             log := st.log ++ [(id, Except.ok
               (InferResponse.stream_inprog tok e'.generated_tokens none))]
             completed := st.completed ++ [id]
             reasons := st.reasons ++ [(id, StopReason.Cancelled)] } := by
  unfold afterDecode
  rw [check_notFinished e' ntid d.eos_token_id none now hdl hmin]
  dsimp only
  rw [if_neg (fun hcon => hcon rfl)]
  rw [hch]
  rfl

theorem afterDecode_unary (d : Decoder) (now : Nat) (st : PState)
    (id ntid : Nat) (e' : Entry) (closed : Bool)
    (hch : e'.channel = ReplyChannel.unary closed)
    (hdl : e'.request.parameters.deadline = none)
    (hmin : e'.generated_tokens < e'.request.parameters.min_new_tokens) :
    afterDecode d now st id ntid false none none e' =
      (if (e'.generated_tokens % 16 == 0 && closed) = true then
        some { entries := removeE id st.entries
               log := st.log
               completed := st.completed ++ [id]
               reasons := st.reasons ++ [(id, StopReason.Cancelled)] }
      else
        some { entries := updateE id e' st.entries
               log := st.log
               completed := st.completed
               reasons := st.reasons }) := by
  unfold afterDecode
  rw [check_notFinished e' ntid d.eos_token_id none now hdl hmin]
  dsimp only
  rw [if_neg (fun hcon => hcon rfl)]
  simp only [Bool.false_eq_true, if_false]
  rw [hch]

theorem stream_cancel_step (d : Decoder) (now : Nat) (st : PState)
    (id tokid : Nat) (e : Entry)
    (hl : lookupE id st.entries = some e)
    (hch : e.channel = ReplyChannel.streaming true)
    (hout : e.output = none)
    (hseq : e.request.parameters.stop_seqs = [])
    (hdl : e.request.parameters.deadline = none)
    (hmin : e.generated_tokens + 1 < e.request.parameters.min_new_tokens) :
    processOneToken d now st { request_id := id, token_id := tokid } =
      some { entries := removeE id st.entries
             log := st.log ++ [(id, Except.ok (InferResponse.stream_inprog
               { request_id := id, token_id := tokid }
               (e.generated_tokens + 1) none))]
             completed := st.completed ++ [id]
             reasons := st.reasons ++ [(id, StopReason.Cancelled)] } := by
  unfold processOneToken
  dsimp only
  rw [hl]
  dsimp only
  simp only [hseq, List.isEmpty_nil, Bool.not_true, Bool.and_false,
    Bool.false_eq_true, if_false, hch, ReplyChannel.isStream, if_true, hout]
  rw [afterDecode_stream_closed]
  · rfl
  · exact hdl
  · exact hmin

theorem unary_step (d : Decoder) (now : Nat) (st : PState)
    (id tokid : Nat) (e : Entry) (closed : Bool)
    (hl : lookupE id st.entries = some e)
    (hch : e.channel = ReplyChannel.unary closed)
    (hout : e.output = none)
    (hseq : e.request.parameters.stop_seqs = [])
    (hdl : e.request.parameters.deadline = none)
    (hmin : e.generated_tokens + 1 < e.request.parameters.min_new_tokens) :
    processOneToken d now st { request_id := id, token_id := tokid } =
      (if ((e.generated_tokens + 1) % 16 == 0 && closed) = true then
        some { entries := removeE id st.entries
               log := st.log
               completed := st.completed ++ [id]
               reasons := st.reasons ++ [(id, StopReason.Cancelled)] }
      else
        some { entries := updateE id (bumpEntry id tokid e) st.entries
               log := st.log
               completed := st.completed
               reasons := st.reasons }) := by
  unfold processOneToken
  dsimp only
  rw [hl]
  dsimp only
  simp only [hseq, List.isEmpty_nil, Bool.not_true, Bool.and_false,
    Bool.false_eq_true, if_false, hch, ReplyChannel.isStream, hout]
  rw [afterDecode_unary _ _ _ _ _ _ closed]
  · simp only [bumpEntry]
    rw [hch, hout]
  · rfl
  · exact hdl
  · exact hmin

theorem iterSteps_add (d : Decoder) (now : Nat) (id tok : Nat) :
    ∀ (a b : Nat) (st : PState),
      iterSteps d now id tok (a + b) st =
        (iterSteps d now id tok a st).bind (iterSteps d now id tok b) := by
  intro a
  induction a with
  | zero =>
    intro b st
    simp [iterSteps]
  | succ a ih =>
    intro b st
    rw [Nat.succ_add]
    show (match processOneToken d now st { request_id := id, token_id := tok } with
      | none => none
      | some st1 => iterSteps d now id tok (a + b) st1) = _
    cases hp : processOneToken d now st { request_id := id, token_id := tok } with
    | none => simp [iterSteps, hp]
    | some st1 => simp [iterSteps, hp, ih]

theorem bumpIter_gen (id tok : Nat) (e : Entry) :
    ∀ i, ((bumpEntry id tok)^[i] e).generated_tokens = e.generated_tokens + i := by
  intro i
  induction i with
  | zero => simp
  | succ i ih =>
    rw [Function.iterate_succ_apply', bumpEntry_gen, ih]
    omega

theorem bumpIter_channel (id tok : Nat) (e : Entry) :
    ∀ i, ((bumpEntry id tok)^[i] e).channel = e.channel := by
  intro i
  induction i with
  | zero => simp
  | succ i ih => rw [Function.iterate_succ_apply', bumpEntry_channel, ih]

theorem bumpIter_output (id tok : Nat) (e : Entry) :
    ∀ i, ((bumpEntry id tok)^[i] e).output = e.output := by
  intro i
  induction i with
  | zero => simp
  | succ i ih => rw [Function.iterate_succ_apply', bumpEntry_output, ih]

theorem bumpIter_request (id tok : Nat) (e : Entry) :
    ∀ i, ((bumpEntry id tok)^[i] e).request = e.request := by
  intro i
  induction i with
  | zero => simp
  | succ i ih => rw [Function.iterate_succ_apply', bumpEntry_request, ih]

theorem unary_retain_iter (d : Decoder) (now : Nat) (id tokid : Nat) :
    ∀ (i : Nat) (e : Entry) (lg : LogT) (cp : List Nat)
      (rs : List (Nat × StopReason)),
      e.channel = ReplyChannel.unary true →
      e.output = none →
      e.request.parameters.stop_seqs = [] →
      e.request.parameters.deadline = none →
      e.generated_tokens + i < e.request.parameters.min_new_tokens →
      (∀ j : Nat, j < i → (e.generated_tokens + j + 1) % 16 ≠ 0) →
      iterSteps d now id tokid i ⟨[(id, e)], lg, cp, rs⟩ =
        some ⟨[(id, (bumpEntry id tokid)^[i] e)], lg, cp, rs⟩ := by
  intro i
  induction i with
  | zero =>
    intro e lg cp rs _ _ _ _ _ _
    simp [iterSteps]
  | succ i ih =>
    intro e lg cp rs hch hout hseq hdl hmin h16
    have hl : lookupE id [(id, e)] = some e := by simp [lookupE]
    have hstep := unary_step d now ⟨[(id, e)], lg, cp, rs⟩ id tokid e true
      hl hch hout hseq hdl (by omega)
    have hcond : (((e.generated_tokens + 1) % 16 == 0 && true) = true) = False := by
      simp
      exact h16 0 (by omega)
    show (match processOneToken d now ⟨[(id, e)], lg, cp, rs⟩
        { request_id := id, token_id := tokid } with
      | none => none
      | some st1 => iterSteps d now id tokid i st1) = _
    rw [hstep, if_neg (by simp [hcond] at *; exact h16 0 (by omega))]
    have hupd : updateE id (bumpEntry id tokid e) [(id, e)] =
        [(id, bumpEntry id tokid e)] := by
      simp [updateE]
    dsimp only
    rw [hupd]
    rw [ih (bumpEntry id tokid e) lg cp rs
      (by rw [bumpEntry_channel]; exact hch)
      (by rw [bumpEntry_output]; exact hout)
      (by rw [bumpEntry_request]; exact hseq)
      (by rw [bumpEntry_request]; exact hdl)
      (by rw [bumpEntry_gen, bumpEntry_request]; omega)
      (by
        intro j hj
        rw [bumpEntry_gen]
        have := h16 (j + 1) (by omega)
        have harith : e.generated_tokens + 1 + j + 1 =
            e.generated_tokens + (j + 1) + 1 := by omega
        rw [harith]
        exact this)]
    rw [← Function.iterate_succ_apply]

/-- C7: cancellation is detected by reply-channel closure.  (i) A streaming
entry whose receiver is gone is removed with reason `Cancelled` on the very
step that sends its in-progress event (within 1 step).  (ii) A unary entry's
one-shot receiver is polled only when the incremented `generated_tokens` is
a multiple of 16: otherwise (or when the receiver is open) the entry is
retained, while at a multiple of 16 with a closed receiver it is removed
with reason `Cancelled`.  (iii) Hence a unary entry with a closed receiver
that keeps generating is cancelled within at most 16 further steps. -/
theorem c7_cancellation :
    (∀ (d : Decoder) (now : Nat) (st : PState) (id tokid : Nat) (e : Entry),
      lookupE id st.entries = some e →
      e.channel = ReplyChannel.streaming true →
      e.output = none →
      e.request.parameters.stop_seqs = [] →
      e.request.parameters.deadline = none →
      e.generated_tokens + 1 < e.request.parameters.min_new_tokens →
      processOneToken d now st { request_id := id, token_id := tokid } =
        some { entries := removeE id st.entries
               log := st.log ++ [(id, Except.ok (InferResponse.stream_inprog
                 { request_id := id, token_id := tokid }
                 (e.generated_tokens + 1) none))]
               completed := st.completed ++ [id]
               reasons := st.reasons ++ [(id, StopReason.Cancelled)] })
    ∧ (∀ (d : Decoder) (now : Nat) (st : PState) (id tokid : Nat) (e : Entry)
        (closed : Bool),
        lookupE id st.entries = some e →
        e.channel = ReplyChannel.unary closed →
        e.output = none →
        e.request.parameters.stop_seqs = [] →
        e.request.parameters.deadline = none →
        e.generated_tokens + 1 < e.request.parameters.min_new_tokens →
        (((e.generated_tokens + 1) % 16 ≠ 0 ∨ closed = false) →
          processOneToken d now st { request_id := id, token_id := tokid } =
            some { entries := updateE id (bumpEntry id tokid e) st.entries
                   log := st.log
                   completed := st.completed
                   reasons := st.reasons })
        ∧ ((e.generated_tokens + 1) % 16 = 0 → closed = true →
          processOneToken d now st { request_id := id, token_id := tokid } =
            some { entries := removeE id st.entries
                   log := st.log
                   completed := st.completed ++ [id]
                   reasons := st.reasons ++ [(id, StopReason.Cancelled)] }))
    ∧ (∀ (d : Decoder) (now : Nat) (id tokid : Nat) (e : Entry) (lg : LogT)
        (cp : List Nat) (rs : List (Nat × StopReason)),
        e.channel = ReplyChannel.unary true →
        e.output = none →
        e.request.parameters.stop_seqs = [] →
        e.request.parameters.deadline = none →
        e.generated_tokens + 16 < e.request.parameters.min_new_tokens →
        ∃ k, k ≤ 16 ∧
          iterSteps d now id tokid k ⟨[(id, e)], lg, cp, rs⟩ =
            some ⟨[], lg, cp ++ [id], rs ++ [(id, StopReason.Cancelled)]⟩) := by
  refine ⟨?_, ?_, ?_⟩
  · intro d now st id tokid e hl hch hout hseq hdl hmin
    exact stream_cancel_step d now st id tokid e hl hch hout hseq hdl hmin
  · intro d now st id tokid e closed hl hch hout hseq hdl hmin
    constructor
    · intro hcond
      rw [unary_step d now st id tokid e closed hl hch hout hseq hdl hmin]
      rw [if_neg]
      simp only [Bool.and_eq_true, beq_iff_eq, not_and]
      intro hmod
      rcases hcond with hmod' | hcl
      · exact absurd hmod hmod'
      · rw [hcl]; simp
    · intro hmod hcl
      rw [unary_step d now st id tokid e closed hl hch hout hseq hdl hmin]
      rw [if_pos]
      simp [hmod, hcl]
  · intro d now id tokid e lg cp rs hch hout hseq hdl hmin
    refine ⟨16 - e.generated_tokens % 16, by omega, ?_⟩
    rw [show 16 - e.generated_tokens % 16 =
      (16 - e.generated_tokens % 16 - 1) + 1 by omega]
    rw [iterSteps_add]
    rw [unary_retain_iter d now id tokid (16 - e.generated_tokens % 16 - 1)
      e lg cp rs hch hout hseq hdl (by omega) (fun j hj => by omega)]
    rw [Option.some_bind]
    set E := (bumpEntry id tokid)^[16 - e.generated_tokens % 16 - 1] e with hE
    show (match processOneToken d now ⟨[(id, E)], lg, cp, rs⟩
        { request_id := id, token_id := tokid } with
      | none => none
      | some st1 => iterSteps d now id tokid 0 st1) = _
    have hstep := unary_step d now ⟨[(id, E)], lg, cp, rs⟩ id tokid E true
      (by simp [lookupE])
      (by rw [hE, bumpIter_channel]; exact hch)
      (by rw [hE, bumpIter_output]; exact hout)
      (by rw [hE, bumpIter_request]; exact hseq)
      (by rw [hE, bumpIter_request]; exact hdl)
      (by rw [hE, bumpIter_gen, bumpIter_request]; omega)
    rw [hstep, if_pos]
    · simp [iterSteps, removeE]
    · simp only [Bool.and_eq_true, beq_iff_eq]
      refine ⟨?_, trivial⟩
      rw [hE, bumpIter_gen]
      omega

/-- C7 witness: a closed streaming entry is cancelled on the very next step;
a fresh closed unary entry is retained on its first step (1 is not a
multiple of 16) and is cancelled within 16 steps. -/
theorem c7_cancellation_witness :
    processOneToken cDecoder 0
        ⟨[(5, { request := { parameters := { min_new_tokens := 10 } }
                channel := ReplyChannel.streaming true })], [], [], []⟩
        { request_id := 5, token_id := 3 } =
      some ⟨[], [(5, Except.ok (InferResponse.stream_inprog
        { request_id := 5, token_id := 3 } 1 none))], [5],
        [(5, StopReason.Cancelled)]⟩
    ∧ processOneToken cDecoder 0
        ⟨[(6, { request := { parameters := { min_new_tokens := 100 } }
                channel := ReplyChannel.unary true })], [], [], []⟩
        { request_id := 6, token_id := 3 } =
      some ⟨[(6, bumpEntry 6 3
          { request := { parameters := { min_new_tokens := 100 } }
            channel := ReplyChannel.unary true })], [], [], []⟩
    ∧ ∃ k, k ≤ 16 ∧
        iterSteps cDecoder 0 6 3 k
            ⟨[(6, { request := { parameters := { min_new_tokens := 100 } }
                    channel := ReplyChannel.unary true })], [], [], []⟩ =
          some ⟨[], [], [6], [(6, StopReason.Cancelled)]⟩ := by
  refine ⟨?_, ?_, ?_⟩
  · exact c7_cancellation.1 cDecoder 0
      ⟨[(5, { request := { parameters := { min_new_tokens := 10 } }
              channel := ReplyChannel.streaming true })], [], [], []⟩ 5 3
      { request := { parameters := { min_new_tokens := 10 } }
        channel := ReplyChannel.streaming true }
      rfl rfl rfl rfl rfl (by decide)
  · exact (c7_cancellation.2.1 cDecoder 0
      ⟨[(6, { request := { parameters := { min_new_tokens := 100 } }
              channel := ReplyChannel.unary true })], [], [], []⟩ 6 3
      { request := { parameters := { min_new_tokens := 100 } }
        channel := ReplyChannel.unary true } true
      rfl rfl rfl rfl rfl (by decide)).1 (Or.inl (by decide))
  · exact c7_cancellation.2.2 cDecoder 0 6 3
      { request := { parameters := { min_new_tokens := 100 } }
        channel := ReplyChannel.unary true } [] [] []
      rfl rfl rfl rfl (by decide)
